import Mathlib

/-
Verification of the VoiceDine frontend voice pipeline.

The definitions below are a shallow embedding of the TypeScript sources:
  - frontend/src/lib/useVoiceRecorder.ts  (transcript accumulator)
  - frontend/src/lib/useRequirementsStore.ts  (requirement store)
  - the voice-loop hook (useVoiceLoop: runCycle, processWithGrok,
    triggerExaSearch, startLoop, stopLoop)
  - frontend/src/components/StreetView.tsx  (handleBooking)
  - frontend/src/lib/useLiveScribe.ts  (floatTo16BitPCM)
JavaScript strings are modelled as Lean strings (one Char per UTF-16 unit in
the inputs considered), numbers as Nat / Int / Rat, network calls as explicit
oracle arguments, and side effects (API requests, callbacks, timers) as
explicit effect logs returned by each operation.
-/

namespace VoiceDine

/-- Character class of the JavaScript string `trim` / regex `\s`:
whitespace and line terminators. -/
def isJsWs (c : Char) : Bool :=
  c = '\t' ∨ c = '\n' ∨ c = '\u000B' ∨ c = '\u000C' ∨ c = '\r' ∨ c = ' ' ∨
  c = ' ' ∨ c = ' ' ∨ c = ' ' ∨ c = ' ' ∨ c = ' ' ∨
  c = ' ' ∨ c = ' ' ∨ c = ' ' ∨ c = ' ' ∨ c = ' ' ∨
  c = ' ' ∨ c = ' ' ∨ c = ' ' ∨ c = ' ' ∨ c = ' ' ∨
  c = ' ' ∨ c = ' ' ∨ c = '　' ∨ c = '﻿'

/-- Character class of the JavaScript line terminators (the characters the
regex `.` does not match). -/
def isLineTerm (c : Char) : Bool :=
  c = '\n' ∨ c = '\r' ∨ c = ' ' ∨ c = ' '

/-- Character class of the JavaScript regex `.` (without the `s` flag). -/
def dotChar (c : Char) : Bool := ¬ isLineTerm c

/-- List-level model of JavaScript `String.prototype.trim`. -/
def jsTrimList (l : List Char) : List Char :=
  ((l.dropWhile isJsWs).reverse.dropWhile isJsWs).reverse

/-- Model of JavaScript `String.prototype.trim`. -/
def jsTrim (s : String) : String := ⟨jsTrimList s.data⟩

/-! ### Transcript accumulator (useVoiceRecorder.ts)

State held by the hook: the per-speaker map `speakerTranscripts`, the full
log `fullTranscriptRef.current`, and the delta cursor
`lastDeltaIndexRef.current`. -/

/-- Lookup in the insertion-ordered model of the JavaScript `Map`. -/
def mapGet (m : List (Nat × String)) (k : Nat) : Option String :=
  (m.find? (fun p => p.1 == k)).map (·.2)

/-- Update in the insertion-ordered model of the JavaScript `Map`:
replace in place when the key exists, append otherwise. -/
def mapSet (m : List (Nat × String)) (k : Nat) (v : String) : List (Nat × String) :=
  if m.any (fun p => p.1 == k) then
    m.map (fun p => if p.1 == k then (k, v) else p)
  else m ++ [(k, v)]

/-- State of the transcript accumulator in useVoiceRecorder.ts. -/
structure RecState where
  speakerTranscripts : List (Nat × String)
  fullTranscript : String
  lastDeltaIndex : Nat
deriving DecidableEq, Repr

/-- Initial state of the accumulator (empty map, empty log, cursor 0). -/
def recInit : RecState := ⟨[], "", 0⟩

/-- Embedding of the `ws.onmessage` transcript branch of useVoiceRecorder.ts:
trims the incoming text, and when non-empty appends a speaker-labeled copy to
the full log (space-separated) and extends the per-speaker map entry. -/
def recMessage (s : RecState) (speakerId : Nat) (text : String) : RecState :=
  let newText := jsTrim text
  if newText = "" then s
  else
    let labeled := "[Speaker " ++ toString speakerId ++ "]: " ++ newText
    let full := s.fullTranscript ++
      ((if s.fullTranscript ≠ "" then " " else "") ++ labeled)
    let existing := (mapGet s.speakerTranscripts speakerId).getD ""
    let entry := if existing ≠ "" then existing ++ " " ++ newText else newText
    { s with fullTranscript := full,
             speakerTranscripts := mapSet s.speakerTranscripts speakerId entry }

/-- Embedding of `getDeltaTranscript` of useVoiceRecorder.ts: returns the
empty string when the cursor has caught up with the log, otherwise returns the
trimmed tail of the log after the cursor and advances the cursor to the
current log length. -/
def getDeltaTranscript (s : RecState) : String × RecState :=
  if s.fullTranscript.length ≤ s.lastDeltaIndex then ("", s)
  else (jsTrim (s.fullTranscript.drop s.lastDeltaIndex),
        { s with lastDeltaIndex := s.fullTranscript.length })

/-- Embedding of `getFullTranscript` of useVoiceRecorder.ts: reads the full
log without touching the cursor. -/
def getFullTranscript (s : RecState) : String := s.fullTranscript

/-- Embedding of `clearTranscripts` of useVoiceRecorder.ts: clears the
per-speaker map and resets the full log and the delta cursor together. -/
def clearTranscripts (_s : RecState) : RecState := ⟨[], "", 0⟩

/-- Operations offered by the transcript accumulator. -/
inductive RecOp where
  | message (speakerId : Nat) (text : String)
  | readDelta
  | readFull
  | reset
deriving DecidableEq, Repr

/-- State transition of one accumulator operation. -/
def recStep (s : RecState) : RecOp → RecState
  | .message sid text => recMessage s sid text
  | .readDelta => (getDeltaTranscript s).2
  | .readFull => s
  | .reset => clearTranscripts s

/-- States of the accumulator reachable from the initial state by any
sequence of operations. -/
inductive RecReachable : RecState → Prop
  | init : RecReachable recInit
  | step (s : RecState) (op : RecOp) : RecReachable s → RecReachable (recStep s op)

theorem length_append_ge (a b : String) : a.length ≤ (a ++ b).length := by
  simp [String.length_append]

theorem recMessage_cursor (s : RecState) (sid : Nat) (t : String) :
    (recMessage s sid t).lastDeltaIndex = s.lastDeltaIndex := by
  by_cases h : jsTrim t = "" <;> simp [recMessage, h]

theorem recMessage_log_ge (s : RecState) (sid : Nat) (t : String) :
    s.fullTranscript.length ≤ (recMessage s sid t).fullTranscript.length := by
  by_cases h : jsTrim t = ""
  · simp [recMessage, h]
  · simp only [recMessage, h, if_neg, ite_false]
    exact length_append_ge _ _

theorem recStep_cursor_le (s : RecState) (op : RecOp)
    (h : s.lastDeltaIndex ≤ s.fullTranscript.length) :
    (recStep s op).lastDeltaIndex ≤ (recStep s op).fullTranscript.length := by
  cases op with
  | message sid t =>
      have h1 := recMessage_cursor s sid t
      have h2 := recMessage_log_ge s sid t
      simpa [recStep, h1] using le_trans h h2
  | readDelta =>
      simp only [recStep, getDeltaTranscript]
      split <;> simp_all
  | readFull => simpa [recStep] using h
  | reset => simp [recStep, clearTranscripts]

theorem recInv {s : RecState} (h : RecReachable s) :
    s.lastDeltaIndex ≤ s.fullTranscript.length := by
  induction h with
  | init => simp [recInit]
  | step s op _ ih => exact recStep_cursor_le s op ih

/-- Conclusion of the delta-cursor invariant claim, as a predicate on
accumulator states: the cursor is between 0 and the log length, no non-reset
operation decreases it, a readDelta returning a non-empty delta moves it to
the log length, and every operation preserves the bound. -/
def DeltaCursorInv (s : RecState) : Prop :=
  (0 ≤ s.lastDeltaIndex ∧ s.lastDeltaIndex ≤ s.fullTranscript.length) ∧
  (∀ op : RecOp, op ≠ RecOp.reset → s.lastDeltaIndex ≤ (recStep s op).lastDeltaIndex) ∧
  ((getDeltaTranscript s).1 ≠ "" →
    (getDeltaTranscript s).2.lastDeltaIndex = s.fullTranscript.length) ∧
  (∀ op : RecOp, (recStep s op).lastDeltaIndex ≤ (recStep s op).fullTranscript.length)

/-- C3: in every reachable state of the transcript accumulator the delta
cursor satisfies 0 ≤ cursor ≤ length of the full log; the cursor never
decreases except on full reset; each readDelta (getDeltaTranscript) call that
returns a non-empty delta sets the cursor to the current log length; and the
invariant is preserved by every operation (append fragment, readDelta,
readFull, reset). -/
theorem c3_delta_cursor_invariant (s : RecState) (h : RecReachable s) :
    DeltaCursorInv s := by
  refine ⟨⟨Nat.zero_le _, recInv h⟩, ?_, ?_, fun op => recStep_cursor_le s op (recInv h)⟩
  · intro op hop
    cases op with
    | message sid t => simp [recStep, recMessage_cursor]
    | readDelta =>
        simp only [recStep, getDeltaTranscript]
        split
        · exact le_refl _
        · next hlt => simpa using Nat.le_of_lt (Nat.lt_of_not_le hlt)
    | readFull => simp [recStep]
    | reset => exact absurd rfl hop
  · intro hne
    by_cases hc : s.fullTranscript.length ≤ s.lastDeltaIndex
    · simp [getDeltaTranscript, hc] at hne
    · simp [getDeltaTranscript, hc]

/-- Witness for C3: the invariant conclusion holds at a concrete reachable
state, obtained after one appended fragment. -/
theorem c3_delta_cursor_invariant_witness :
    RecReachable (recStep recInit (RecOp.message 0 "hello")) ∧
    DeltaCursorInv (recStep recInit (RecOp.message 0 "hello")) :=
  ⟨RecReachable.step recInit (RecOp.message 0 "hello") RecReachable.init,
   c3_delta_cursor_invariant _
     (RecReachable.step recInit (RecOp.message 0 "hello") RecReachable.init)⟩

/-- C4: for every accumulator state (hence after any sequence of appended
fragments), a readDelta (getDeltaTranscript) call followed immediately by a
second readDelta call returns the empty string on the second call. -/
theorem c4_idempotent_drain (s : RecState) :
    (getDeltaTranscript (getDeltaTranscript s).2).1 = "" := by
  by_cases hc : s.fullTranscript.length ≤ s.lastDeltaIndex
  · simp [getDeltaTranscript, hc]
  · simp [getDeltaTranscript, hc]

/-! ### Bracket-suffix requirement parsing

Both useRequirementsStore.ts (`parseRequirement`) and the voice loop
(`processWithGrok`) run `req.match(/^(.+?)\s*\[(.+?)\]$/)` on each extracted
requirement string.  The matcher below is a direct embedding of that regex
with JavaScript backtracking semantics: group 1 is lazy (shortest prefix
first), `\s*` is greedy, group 2 is lazy, and the match is anchored at both
ends, so the closing bracket must be the final character. -/

/-- Embedding of the regex tail `\[(.+?)\]$`: the list must start with an
opening bracket, end with a closing bracket, and hold a non-empty run of
`.`-matchable characters in between, which is returned as group 2. -/
def matchBracket (l : List Char) : Option (List Char) :=
  match l with
  | c :: rest =>
      if c = '[' then
        if rest.getLast? = some ']' ∧ rest.dropLast ≠ [] ∧ rest.dropLast.all dotChar
        then some rest.dropLast else none
      else none
  | [] => none

/-- Embedding of the regex tail `\s*\[(.+?)\]$` after group 1: the greedy
whitespace run must end exactly at an opening bracket, since no shorter
whitespace run can expose one. -/
def matchAfterP (rest : List Char) : Option (List Char) :=
  matchBracket (rest.dropWhile isJsWs)

/-- Backtracking loop of the lazy group 1: `pRev` is the reversed prefix
consumed so far; at each position first try to finish the match, then extend
group 1 by one `.`-matchable character. -/
def goMatch : List Char → List Char → Option (List Char × List Char)
  | pRev, rest =>
    match matchAfterP rest with
    | some q => some (pRev.reverse, q)
    | none =>
      match rest with
      | [] => none
      | c :: rest2 =>
          if dotChar c then goMatch (c :: pRev) rest2 else none

/-- Embedding of `req.match(/^(.+?)\s*\[(.+?)\]$/)`: returns the two capture
groups on success. -/
def regexMatchReq (s : List Char) : Option (List Char × List Char) :=
  match s with
  | [] => none
  | c :: rest => if dotChar c then goMatch [c] rest else none

/-- Embedding of `parseRequirement` of useRequirementsStore.ts: on a regex
match, the trimmed capture groups become text and speaker; otherwise the raw
string with speaker "Unknown". -/
def parseRequirement (req : String) : String × String :=
  match regexMatchReq req.data with
  | some (p, q) => (⟨jsTrimList p⟩, ⟨jsTrimList q⟩)
  | none => (req, "Unknown")

/-- Requirement record of the voice loop (`RequirementWithSpeaker`). -/
structure RWS where
  requirement : String
  speaker : Option String
  timestamp : Nat
deriving DecidableEq, Repr

/-- Embedding of the per-string parsing step inside `processWithGrok` of the
voice loop: same regex, but the speaker stays absent when the match fails. -/
def parseRWS (now : Nat) (req : String) : RWS :=
  match regexMatchReq req.data with
  | some (p, q) => ⟨⟨jsTrimList p⟩, some ⟨jsTrimList q⟩, now⟩
  | none => ⟨req, none, now⟩

theorem matchBracket_not_open {c : Char} (l : List Char) (h : c ≠ '[') :
    matchBracket (c :: l) = none := by
  simp [matchBracket, h]

theorem matchAfterP_sep (s : List Char) (hs : s ≠ []) (hsdot : s.all dotChar = true) :
    matchAfterP (' ' :: ('[' :: (s ++ [']']))) = some s := by
  have hws : isJsWs ' ' = true := by decide
  have hbr : isJsWs '[' = false := by decide
  simp only [matchAfterP, List.dropWhile_cons, hws, hbr, if_true, if_false]
  simp [matchBracket, List.getLast?_concat, List.dropLast_concat, hs, hsdot]

theorem matchAfterP_append_fail (t X : List Char)
    (hne : ¬ ∀ y ∈ t, isJsWs y = true) (hbr : '[' ∉ t) :
    matchAfterP (t ++ X) = none := by
  have hdw : t.dropWhile isJsWs ≠ [] := by
    intro h
    exact hne (List.dropWhile_eq_nil_iff.mp h)
  unfold matchAfterP
  rw [List.dropWhile_append]
  simp only [List.isEmpty_iff, hdw, if_false]
  obtain ⟨d, ds, hds⟩ := List.exists_cons_of_ne_nil hdw
  have hdmem : d ∈ t := (List.dropWhile_sublist isJsWs).mem (hds ▸ List.mem_cons_self d ds)
  have hd : d ≠ '[' := fun h => hbr (h ▸ hdmem)
  rw [hds, List.cons_append]
  exact matchBracket_not_open _ hd

theorem dropWhile_append_of_all {p : Char → Bool} (l₁ l₂ : List Char)
    (h : l₁.all p = true) : (l₁ ++ l₂).dropWhile p = l₂.dropWhile p := by
  have h1 : l₁.dropWhile p = [] :=
    List.dropWhile_eq_nil_iff.mpr (by simpa [List.all_eq_true] using h)
  rw [List.dropWhile_append, h1]
  simp

theorem jsTrimList_append_ws (p r : List Char) (h : r.all isJsWs = true) :
    jsTrimList (p ++ r) = jsTrimList p := by
  unfold jsTrimList
  have hrev : r.reverse.all isJsWs = true := by rw [List.all_reverse]; exact h
  cases hd : p.dropWhile isJsWs with
  | nil =>
      have h1 : (p ++ r).dropWhile isJsWs = [] := by
        rw [List.dropWhile_append, hd]
        simpa using List.dropWhile_eq_nil_iff.mpr
          (by simpa [List.all_eq_true] using h)
      rw [h1]
  | cons d ds =>
      have h1 : (p ++ r).dropWhile isJsWs = (d :: ds) ++ r := by
        rw [List.dropWhile_append, hd]
        simp
      rw [h1, List.reverse_append,
        dropWhile_append_of_all r.reverse (d :: ds).reverse hrev]

theorem matchAfterP_open (s : List Char) (hs : s ≠ []) (hsdot : s.all dotChar = true) :
    matchAfterP ('[' :: (s ++ [']'])) = some s := by
  have hob : isJsWs '[' = false := by decide
  simp only [matchAfterP, List.dropWhile_cons, hob, if_false]
  simp [matchBracket, List.getLast?_concat, List.dropLast_concat, hs, hsdot]

theorem matchAfterP_ws_sep (w s : List Char) (hw : w.all isJsWs = true)
    (hs : s ≠ []) (hsdot : s.all dotChar = true) :
    matchAfterP (w ++ (' ' :: ('[' :: (s ++ [']'])))) = some s := by
  unfold matchAfterP
  rw [dropWhile_append_of_all w (' ' :: ('[' :: (s ++ [']']))) hw]
  exact matchAfterP_sep s hs hsdot

theorem goMatch_run (s : List Char) (hs : s ≠ []) (hsdot : s.all dotChar = true) :
    ∀ (t pRev : List Char), t.all dotChar = true → '[' ∉ t →
      ∃ p r, t = p ++ r ∧ r.all isJsWs = true ∧
        goMatch pRev (t ++ (' ' :: ('[' :: (s ++ [']'])))) =
          some (pRev.reverse ++ p, s) := by
  intro t
  induction t with
  | nil =>
      intro pRev _ _
      refine ⟨[], [], rfl, rfl, ?_⟩
      rw [List.nil_append, List.append_nil, goMatch, matchAfterP_sep s hs hsdot]
  | cons c t2 ih =>
      intro pRev htdot hbr
      have hcdot : dotChar c = true := by
        simp only [List.all_cons, Bool.and_eq_true] at htdot
        exact htdot.1
      have ht2dot : t2.all dotChar = true := by
        simp only [List.all_cons, Bool.and_eq_true] at htdot
        exact htdot.2
      have ht2br : '[' ∉ t2 := fun h => hbr (List.mem_cons_of_mem c h)
      by_cases hws : (c :: t2).all isJsWs = true
      · refine ⟨[], c :: t2, rfl, hws, ?_⟩
        have hm := matchAfterP_ws_sep (c :: t2) s hws hs hsdot
        rw [List.cons_append] at hm
        rw [List.append_nil, List.cons_append, goMatch, hm]
      · have hne : ¬ ∀ y ∈ (c :: t2), isJsWs y = true := by
          simpa [List.all_eq_true] using hws
        have hfail := matchAfterP_append_fail (c :: t2) (' ' :: ('[' :: (s ++ [']']))) hne hbr
        rw [List.cons_append] at hfail
        obtain ⟨p2, r2, hpr, hr2, hgo⟩ := ih (c :: pRev) ht2dot ht2br
        refine ⟨c :: p2, r2, by rw [hpr, List.cons_append], hr2, ?_⟩
        rw [List.cons_append, goMatch, hfail]
        simp only [hcdot, if_true]
        rw [hgo]
        simp

/-- C7, amended: for a requirement string of the form `<text> [<speaker>]`
whose text part contains no opening bracket and no line terminator, and whose
speaker part is non-empty with no line terminator, the bracket-suffix parser
returns the trimmed text and the trimmed speaker. -/
theorem c7_bracket_suffix_parse (t s : List Char) (hs : s ≠ [])
    (hsdot : s.all dotChar = true) (htdot : t.all dotChar = true)
    (hbr : '[' ∉ t) :
    parseRequirement ⟨t ++ (' ' :: ('[' :: (s ++ [']'])))⟩ =
      (⟨jsTrimList t⟩, ⟨jsTrimList s⟩) := by
  unfold parseRequirement
  cases t with
  | nil =>
      have hsp : dotChar ' ' = true := by decide
      simp only [List.nil_append, regexMatchReq, hsp, if_true]
      rw [goMatch, matchAfterP_open s hs hsdot]
      have h0 : jsTrimList [' '] = jsTrimList ([] : List Char) := by decide
      simp [h0]
  | cons c t2 =>
      have hcdot : dotChar c = true := by
        simp only [List.all_cons, Bool.and_eq_true] at htdot
        exact htdot.1
      have ht2dot : t2.all dotChar = true := by
        simp only [List.all_cons, Bool.and_eq_true] at htdot
        exact htdot.2
      have ht2br : '[' ∉ t2 := fun h => hbr (List.mem_cons_of_mem c h)
      obtain ⟨p2, r2, hpr, hr2, hgo⟩ := goMatch_run s hs hsdot t2 [c] ht2dot ht2br
      simp only [List.cons_append, regexMatchReq, hcdot, if_true]
      rw [hgo]
      have ht : (c :: t2) = (c :: p2) ++ r2 := by rw [hpr]; rfl
      rw [ht, jsTrimList_append_ws (c :: p2) r2 hr2]
      rfl

/-- C7 counterexample: the string "a [b [c]" is of the bracket-suffix form
with text "a [b" and speaker "c", yet the parser returns text "a" and speaker
"b [c", not the claimed text/speaker pair, because the lazy group 1 stops at
the first opening bracket. -/
theorem c7_counterexample :
    ("a [b [c]" : String) = ⟨"a [b".data ++ (' ' :: ('[' :: ("c".data ++ [']'])))⟩ ∧
    parseRequirement "a [b [c]" = ("a", "b [c") ∧
    parseRequirement "a [b [c]" ≠ ("a [b", "c") := by
  decide

/-- Witness for C7 (amended): the spec scenario itself, where the hypotheses
hold and "I want sushi [Speaker 0]" parses to text "I want sushi" with
speaker "Speaker 0". -/
theorem c7_bracket_suffix_parse_witness :
    ("Speaker 0".data ≠ [] ∧
     "Speaker 0".data.all dotChar = true ∧ "I want sushi".data.all dotChar = true ∧
     '[' ∉ "I want sushi".data) ∧
    parseRequirement ⟨"I want sushi".data ++ (' ' :: ('[' :: ("Speaker 0".data ++ [']'])))⟩ =
      (⟨jsTrimList "I want sushi".data⟩, ⟨jsTrimList "Speaker 0".data⟩) :=
  ⟨⟨by decide, by decide, by decide, by decide⟩,
   c7_bracket_suffix_parse "I want sushi".data "Speaker 0".data
     (by decide) (by decide) (by decide) (by decide)⟩

/-! ### Voice loop (useVoiceLoop)

The hook state (`isLoopActiveRef`, `isProcessing`, `cycleCount`,
`requirements`, `lastError`) is modelled explicitly; the two network calls
are oracle arguments of type `Except` (a thrown network or parse error is
`Except.error`); the issued API requests, the callback invocations and the
`setTimeout` re-scheduling are returned as explicit effect logs. -/

/-- Geolocation record of a restaurant result (types.ts). -/
structure Geolocation where
  latitude : ℚ
  longitude : ℚ
deriving DecidableEq, Repr

/-- Restaurant result record produced by the search endpoint (types.ts). -/
structure RestaurantResult where
  name : String
  address : String
  cuisine : String
  rating : ℚ
  match_score : ℚ
  match_criteria : List String
  price_range : String
  url : String
  geolocation : Geolocation
deriving DecidableEq, Repr

/-- API requests the voice loop can issue over the network. -/
inductive ApiCall where
  | grokExtract (transcript : String) (existing : Option (List String))
  | exaSearch (prompt : String)
deriving DecidableEq, Repr

/-- Response shape of the extraction endpoint (`GrokResponse`). -/
structure GrokResponse where
  requirements : List String
  success : Bool
  error : Option String
deriving DecidableEq, Repr

/-- State of the useVoiceLoop hook. -/
structure LoopState where
  isLoopActiveRef : Bool
  isProcessing : Bool
  cycleCount : Nat
  requirements : List RWS
  lastError : Option String
deriving DecidableEq, Repr

/-- Result of one `processWithGrok` run: the parsed new requirements, the
updated hook state, the API calls issued, and the error-callback payloads. -/
structure GrokStep where
  newReqs : List RWS
  st : LoopState
  calls : List ApiCall
  errs : List String
deriving DecidableEq, Repr

/-- Embedding of `processWithGrok` of useVoiceLoop: an empty (or
whitespace-only) delta short-circuits to no requirements without a network
call; otherwise the extraction endpoint is called with the delta and the
existing requirement texts; a successful non-empty response is parsed with
the bracket-suffix convention; an unsuccessful response with a non-empty
error message, or a thrown error, records and reports the error; every
failure path returns an empty requirement list. -/
def processWithGrok (st : LoopState) (now : Nat) (delta : String)
    (resp : Except String GrokResponse) : GrokStep :=
  if jsTrim delta = "" then ⟨[], st, [], []⟩
  else
    let existingReqs := st.requirements.map (·.requirement)
    let call := ApiCall.grokExtract delta
      (if 0 < existingReqs.length then some existingReqs else none)
    match resp with
    | .error err => ⟨[], { st with lastError := some err }, [call], [err]⟩
    | .ok r =>
      if r.success ∧ 0 < r.requirements.length then
        ⟨r.requirements.map (parseRWS now), st, [call], []⟩
      else
        match r.error with
        | some e =>
            if ¬ r.success ∧ e ≠ "" then
              ⟨[], { st with lastError := some e }, [call], [e]⟩
            else ⟨[], st, [call], []⟩
        | none => ⟨[], st, [call], []⟩

/-- Result of one `triggerExaSearch` run: the updated hook state, the API
calls issued, the results-callback payloads, and the error-callback
payloads. -/
structure ExaStep where
  st : LoopState
  calls : List ApiCall
  results : List (List RestaurantResult)
  errs : List String
deriving DecidableEq, Repr

/-- Embedding of `triggerExaSearch` of useVoiceLoop: an empty requirement
list is a no-op; otherwise the processing flag is set, the requirement texts
are joined with ", " into the prompt, an empty-after-trim prompt issues no
request, a non-empty result list is reported through the results callback,
and a thrown error is recorded and reported. -/
def triggerExaSearch (st : LoopState) (reqs : List RWS)
    (resp : Except String (List RestaurantResult)) : ExaStep :=
  if reqs.length = 0 then ⟨st, [], [], []⟩
  else
    let st1 := { st with isProcessing := true }
    let searchQuery := String.intercalate ", " (reqs.map (·.requirement))
    if jsTrim searchQuery = "" then ⟨st1, [], [], []⟩
    else
      match resp with
      | .ok results =>
          if 0 < results.length then
            ⟨st1, [ApiCall.exaSearch searchQuery], [results], []⟩
          else ⟨st1, [ApiCall.exaSearch searchQuery], [], []⟩
      | .error err =>
          ⟨{ st1 with lastError := some err }, [ApiCall.exaSearch searchQuery], [], [err]⟩

/-- Effects of one voice-loop cycle: API calls, callback invocations, and
whether a next cycle was scheduled by the trailing `setTimeout`. -/
structure CycleEffects where
  calls : List ApiCall
  extractedCb : List (List RWS)
  exaResultsCb : List (List RestaurantResult)
  errorCb : List String
  scheduledNext : Bool
deriving DecidableEq, Repr

/-- Body of the non-empty-delta branch of `runCycle`: process the delta with
the extraction endpoint; only when at least one new requirement came back,
append to the master list, notify the extraction callback with the updated
list, and trigger the search with that same updated list. -/
def cycleExtract (st0 : LoopState) (now : Nat) (d : String)
    (grokResp : Except String GrokResponse)
    (exaResp : Except String (List RestaurantResult)) :
    LoopState × CycleEffects :=
  let g := processWithGrok st0 now d grokResp
  if 0 < g.newReqs.length then
    let updated := g.st.requirements ++ g.newReqs
    let x := triggerExaSearch g.st updated exaResp
    ({ x.st with requirements := updated },
     ⟨g.calls ++ x.calls, [updated], x.results, g.errs ++ x.errs, false⟩)
  else (g.st, ⟨g.calls, [], [], g.errs, false⟩)

/-- Embedding of `runCycle` of useVoiceLoop: a cycle on an inactive loop does
nothing; otherwise the processing flag is set and the cycle counter bumped;
an absent or whitespace-only delta skips all network calls; a non-empty delta
goes through `cycleExtract`; the processing flag is cleared at the end, and
the next cycle is scheduled exactly when the loop is still active. -/
def runCycle (st : LoopState) (now : Nat) (delta : Option String)
    (grokResp : Except String GrokResponse)
    (exaResp : Except String (List RestaurantResult)) :
    LoopState × CycleEffects :=
  if ¬ st.isLoopActiveRef then (st, ⟨[], [], [], [], false⟩)
  else
    let st0 : LoopState :=
      { st with isProcessing := true, cycleCount := st.cycleCount + 1 }
    let step : LoopState × CycleEffects :=
      match delta with
      | some d =>
        if jsTrim d ≠ "" then cycleExtract st0 now d grokResp exaResp
        else (st0, ⟨[], [], [], [], false⟩)
      | none => (st0, ⟨[], [], [], [], false⟩)
    let st2 : LoopState := { step.1 with isProcessing := false }
    (st2, { step.2 with scheduledNext := st2.isLoopActiveRef })

/-- Embedding of `startLoop` of useVoiceLoop: a no-op when the loop is
already active; otherwise activates the loop, resets the cycle counter, the
requirement list and the last error, and installs the initial-delay timer
(the returned flag). -/
def startLoop (st : LoopState) : LoopState × Bool :=
  if st.isLoopActiveRef then (st, false)
  else
    ({ isLoopActiveRef := true, isProcessing := st.isProcessing, cycleCount := 0,
       requirements := [], lastError := none }, true)

/-- Embedding of `stopLoop` of useVoiceLoop: deactivates the loop and cancels
the pending timer; all other state, the requirement list included, is left
untouched. -/
def stopLoop (st : LoopState) : LoopState :=
  { st with isLoopActiveRef := false }

/-! ### Requirement store (useRequirementsStore.ts) -/

/-- Requirement record of the store (`RequirementItem`). -/
structure RequirementItem where
  id : String
  text : String
  speaker : String
  timestamp : Nat
deriving DecidableEq, Repr

/-- Embedding of `addRequirements` of useRequirementsStore.ts: an empty input
list is a no-op; otherwise each raw string is parsed with the bracket-suffix
convention and the fresh items are appended to the stored list (`rand` models
the random id suffix). -/
def addRequirements (store : List RequirementItem) (newRequirements : List String)
    (now : Nat) (rand : Nat → String) : List RequirementItem :=
  if newRequirements.length = 0 then store
  else
    let newItems := newRequirements.mapIdx (fun index req =>
      let parsed := parseRequirement req
      { id := toString now ++ "-" ++ toString index ++ "-" ++ rand index,
        text := parsed.1, speaker := parsed.2, timestamp := now })
    store ++ newItems

/-- Embedding of `clearRequirements` of useRequirementsStore.ts. -/
def clearRequirements (_store : List RequirementItem) : List RequirementItem := []

theorem processWithGrok_st_requirements (st : LoopState) (now : Nat) (d : String)
    (resp : Except String GrokResponse) :
    (processWithGrok st now d resp).st.requirements = st.requirements := by
  unfold processWithGrok
  repeat' split
  all_goals rfl

theorem processWithGrok_no_exa (st : LoopState) (now : Nat) (d : String)
    (resp : Except String GrokResponse) (p : String) :
    ApiCall.exaSearch p ∉ (processWithGrok st now d resp).calls := by
  unfold processWithGrok
  repeat' split
  all_goals simp

theorem processWithGrok_empty_resp (st : LoopState) (now : Nat) (d : String)
    (r : GrokResponse) (hr : r.requirements = []) :
    (processWithGrok st now d (Except.ok r)).newReqs = [] := by
  unfold processWithGrok
  repeat' split
  all_goals simp_all

theorem processWithGrok_isLoopActive (st : LoopState) (now : Nat) (d : String)
    (resp : Except String GrokResponse) :
    (processWithGrok st now d resp).st.isLoopActiveRef = st.isLoopActiveRef := by
  unfold processWithGrok
  repeat' split
  all_goals rfl

theorem triggerExaSearch_isLoopActive (st : LoopState) (reqs : List RWS)
    (resp : Except String (List RestaurantResult)) :
    (triggerExaSearch st reqs resp).st.isLoopActiveRef = st.isLoopActiveRef := by
  simp only [triggerExaSearch]
  repeat' split
  all_goals rfl

theorem triggerExaSearch_requirements (st : LoopState) (reqs : List RWS)
    (resp : Except String (List RestaurantResult)) :
    (triggerExaSearch st reqs resp).st.requirements = st.requirements := by
  simp only [triggerExaSearch]
  repeat' split
  all_goals rfl

theorem runCycle_inactive (st : LoopState) (now : Nat) (delta : Option String)
    (grokResp : Except String GrokResponse)
    (exaResp : Except String (List RestaurantResult))
    (h : st.isLoopActiveRef = false) :
    runCycle st now delta grokResp exaResp = (st, ⟨[], [], [], [], false⟩) := by
  simp [runCycle, h]

theorem runCycle_none (st : LoopState) (now : Nat)
    (grokResp : Except String GrokResponse)
    (exaResp : Except String (List RestaurantResult))
    (h : st.isLoopActiveRef = true) :
    runCycle st now none grokResp exaResp =
      ({ st with isProcessing := false, cycleCount := st.cycleCount + 1 },
       ⟨[], [], [], [], true⟩) := by
  simp [runCycle, h]

theorem runCycle_empty_delta (st : LoopState) (now : Nat) (d : String)
    (grokResp : Except String GrokResponse)
    (exaResp : Except String (List RestaurantResult))
    (h : st.isLoopActiveRef = true) (hd : jsTrim d = "") :
    runCycle st now (some d) grokResp exaResp =
      ({ st with isProcessing := false, cycleCount := st.cycleCount + 1 },
       ⟨[], [], [], [], true⟩) := by
  simp [runCycle, h, hd]

theorem runCycle_active_delta (st : LoopState) (now : Nat) (d : String)
    (grokResp : Except String GrokResponse)
    (exaResp : Except String (List RestaurantResult))
    (h : st.isLoopActiveRef = true) (hd : jsTrim d ≠ "") :
    runCycle st now (some d) grokResp exaResp =
      (let c := cycleExtract
        { st with isProcessing := true, cycleCount := st.cycleCount + 1 }
        now d grokResp exaResp
       ({ c.1 with isProcessing := false },
        { c.2 with scheduledNext := c.1.isLoopActiveRef })) := by
  simp only [runCycle, h, hd]
  simp [hd]

theorem cycleExtract_isLoopActive (st0 : LoopState) (now : Nat) (d : String)
    (grokResp : Except String GrokResponse)
    (exaResp : Except String (List RestaurantResult)) :
    (cycleExtract st0 now d grokResp exaResp).1.isLoopActiveRef =
      st0.isLoopActiveRef := by
  simp only [cycleExtract]
  split
  · simp [triggerExaSearch_isLoopActive, processWithGrok_isLoopActive]
  · simp [processWithGrok_isLoopActive]

theorem cycleExtract_no_exa_of_empty (st0 : LoopState) (now : Nat) (d : String)
    (r : GrokResponse) (hr : r.requirements = [])
    (exaResp : Except String (List RestaurantResult)) (p : String) :
    ApiCall.exaSearch p ∉ (cycleExtract st0 now d (Except.ok r) exaResp).2.calls := by
  simp only [cycleExtract, processWithGrok_empty_resp st0 now d r hr]
  simpa using processWithGrok_no_exa st0 now d (Except.ok r) p

theorem cycleExtract_growth (st0 : LoopState) (now : Nat) (d : String)
    (grokResp : Except String GrokResponse)
    (exaResp : Except String (List RestaurantResult)) (p : String)
    (hmem : ApiCall.exaSearch p ∈ (cycleExtract st0 now d grokResp exaResp).2.calls) :
    st0.requirements.length <
      (cycleExtract st0 now d grokResp exaResp).1.requirements.length := by
  by_cases hn : 0 < (processWithGrok st0 now d grokResp).newReqs.length
  · simp only [cycleExtract, if_pos hn]
    simp [processWithGrok_st_requirements]
    omega
  · simp only [cycleExtract, if_neg hn] at hmem
    exact absurd hmem (processWithGrok_no_exa st0 now d grokResp p)

/-- C1: if the extraction endpoint returns an empty requirement array, the
cycle issues no search request, even when the master requirement list was
non-empty before the call; and in any cycle a search request is issued only
when the cycle strictly grew the master requirement list. -/
theorem c1_search_only_on_growth (st : LoopState) (now : Nat)
    (delta : Option String) (exaResp : Except String (List RestaurantResult)) :
    (∀ r : GrokResponse, r.requirements = [] →
      ∀ p, ApiCall.exaSearch p ∉ (runCycle st now delta (Except.ok r) exaResp).2.calls) ∧
    (∀ grokResp p,
      ApiCall.exaSearch p ∈ (runCycle st now delta grokResp exaResp).2.calls →
      st.requirements.length < (runCycle st now delta grokResp exaResp).1.requirements.length) := by
  by_cases hact : st.isLoopActiveRef = true
  · cases delta with
    | none =>
        constructor
        · intro r _ p
          rw [runCycle_none st now _ exaResp hact]
          simp
        · intro g p hmem
          rw [runCycle_none st now _ exaResp hact] at hmem
          simp at hmem
    | some d =>
        by_cases hd : jsTrim d = ""
        · constructor
          · intro r _ p
            rw [runCycle_empty_delta st now d _ exaResp hact hd]
            simp
          · intro g p hmem
            rw [runCycle_empty_delta st now d _ exaResp hact hd] at hmem
            simp at hmem
        · constructor
          · intro r hr p
            rw [runCycle_active_delta st now d _ exaResp hact hd]
            exact cycleExtract_no_exa_of_empty _ now d r hr exaResp p
          · intro g p hmem
            rw [runCycle_active_delta st now d g exaResp hact hd] at hmem ⊢
            exact cycleExtract_growth _ now d g exaResp p hmem
  · have hact' : st.isLoopActiveRef = false := by simpa using hact
    constructor
    · intro r _ p
      rw [runCycle_inactive st now _ _ exaResp hact']
      simp
    · intro g p hmem
      rw [runCycle_inactive st now _ _ exaResp hact'] at hmem
      simp at hmem

/-- Witness for C1: with an active loop, a prior master list already holding
"vegan", a non-empty delta, and an extraction response with an empty
requirement array, no search request is issued. -/
theorem c1_search_only_on_growth_witness :
    (GrokResponse.mk [] true none).requirements = [] ∧
    ∀ p, ApiCall.exaSearch p ∉
      (runCycle ⟨true, false, 0, [⟨"vegan", none, 0⟩], none⟩ 1
        (some "I want pizza") (Except.ok ⟨[], true, none⟩)
        (Except.ok [])).2.calls :=
  ⟨rfl,
   (c1_search_only_on_growth ⟨true, false, 0, [⟨"vegan", none, 0⟩], none⟩ 1
     (some "I want pizza") (Except.ok [])).1 ⟨[], true, none⟩ rfl⟩

theorem cycleExtract_requirements_append (st0 : LoopState) (now : Nat) (d : String)
    (g : Except String GrokResponse) (e : Except String (List RestaurantResult)) :
    ∃ tail, (cycleExtract st0 now d g e).1.requirements = st0.requirements ++ tail := by
  by_cases hn : 0 < (processWithGrok st0 now d g).newReqs.length
  · refine ⟨(processWithGrok st0 now d g).newReqs, ?_⟩
    simp only [cycleExtract, if_pos hn]
    simp [processWithGrok_st_requirements]
  · refine ⟨[], ?_⟩
    simp only [cycleExtract, if_neg hn]
    simp [processWithGrok_st_requirements]

/-- C5: within a session the master requirement list is append-only: every
cycle turns the list `old` into `old ++ new`; `startLoop` during an active
session is a no-op (its reset only begins a fresh session); `stopLoop` leaves
the list untouched; and the requirement store's `addRequirements` likewise
only ever appends. -/
theorem c5_requirements_append_only :
    (∀ (st : LoopState) (now : Nat) (delta : Option String)
        (g : Except String GrokResponse) (e : Except String (List RestaurantResult)),
      ∃ tail, (runCycle st now delta g e).1.requirements = st.requirements ++ tail) ∧
    (∀ st : LoopState, st.isLoopActiveRef = true → startLoop st = (st, false)) ∧
    (∀ st : LoopState, (stopLoop st).requirements = st.requirements) ∧
    (∀ (store : List RequirementItem) (newReqs : List String) (now : Nat)
        (rand : Nat → String),
      ∃ items, addRequirements store newReqs now rand = store ++ items) := by
  refine ⟨?_, ?_, fun st => rfl, ?_⟩
  · intro st now delta g e
    by_cases hact : st.isLoopActiveRef = true
    · cases delta with
      | none =>
          refine ⟨[], ?_⟩
          rw [runCycle_none st now g e hact]
          simp
      | some d =>
          by_cases hd : jsTrim d = ""
          · refine ⟨[], ?_⟩
            rw [runCycle_empty_delta st now d g e hact hd]
            simp
          · obtain ⟨tail, htail⟩ := cycleExtract_requirements_append
              { st with isProcessing := true, cycleCount := st.cycleCount + 1 } now d g e
            refine ⟨tail, ?_⟩
            rw [runCycle_active_delta st now d g e hact hd]
            simpa using htail
    · have hact' : st.isLoopActiveRef = false := by simpa using hact
      refine ⟨[], ?_⟩
      rw [runCycle_inactive st now delta g e hact']
      simp
  · intro st h
    simp [startLoop, h]
  · intro store newReqs now rand
    by_cases hn : newReqs.length = 0
    · exact ⟨[], by simp [addRequirements, hn]⟩
    · unfold addRequirements
      rw [if_neg hn]
      exact ⟨_, rfl⟩

/-- Witness for C5: concrete instances of each conjunct, with a non-empty
prior master list. -/
theorem c5_requirements_append_only_witness :
    (∃ tail,
      (runCycle ⟨true, false, 1, [⟨"vegan", none, 0⟩], none⟩ 2 (some "hi")
        (Except.ok ⟨["sushi [Speaker 0]"], true, none⟩)
        (Except.ok [])).1.requirements = [⟨"vegan", none, 0⟩] ++ tail) ∧
    ((⟨true, false, 1, [⟨"vegan", none, 0⟩], none⟩ : LoopState).isLoopActiveRef = true ∧
      startLoop ⟨true, false, 1, [⟨"vegan", none, 0⟩], none⟩ =
        (⟨true, false, 1, [⟨"vegan", none, 0⟩], none⟩, false)) ∧
    (stopLoop ⟨true, false, 1, [⟨"vegan", none, 0⟩], none⟩).requirements =
      [⟨"vegan", none, 0⟩] ∧
    ∃ items, addRequirements [] ["Italian food [User 0]"] 3 (fun _ => "r") = [] ++ items :=
  ⟨c5_requirements_append_only.1 ⟨true, false, 1, [⟨"vegan", none, 0⟩], none⟩ 2
      (some "hi") (Except.ok ⟨["sushi [Speaker 0]"], true, none⟩) (Except.ok []),
   ⟨rfl, c5_requirements_append_only.2.1 _ rfl⟩,
   c5_requirements_append_only.2.2.1 _,
   c5_requirements_append_only.2.2.2 [] ["Italian food [User 0]"] 3 (fun _ => "r")⟩

theorem triggerExaSearch_calls (st : LoopState) (reqs : List RWS)
    (resp : Except String (List RestaurantResult)) :
    (triggerExaSearch st reqs resp).calls =
      if reqs.length = 0 then []
      else if jsTrim (String.intercalate ", " (reqs.map (·.requirement))) = "" then []
      else [ApiCall.exaSearch (String.intercalate ", " (reqs.map (·.requirement)))] := by
  simp only [triggerExaSearch]
  repeat' split
  all_goals simp_all

/-- C6: every search request issued by the search trigger carries exactly the
requirement texts of the full current list joined with ", "; for the list
["Italian", "gluten-free"] the prompt sent is exactly "Italian, gluten-free";
and when the joined prompt is empty after trimming, no request is issued. -/
theorem c6_search_prompt_join :
    (∀ (st : LoopState) (reqs : List RWS)
        (resp : Except String (List RestaurantResult)) (p : String),
      ApiCall.exaSearch p ∈ (triggerExaSearch st reqs resp).calls →
      p = String.intercalate ", " (reqs.map (·.requirement))) ∧
    (∀ (st : LoopState) (resp : Except String (List RestaurantResult)),
      (triggerExaSearch st [⟨"Italian", none, 0⟩, ⟨"gluten-free", none, 1⟩] resp).calls =
        [ApiCall.exaSearch "Italian, gluten-free"]) ∧
    (∀ (st : LoopState) (reqs : List RWS)
        (resp : Except String (List RestaurantResult)),
      jsTrim (String.intercalate ", " (reqs.map (·.requirement))) = "" →
      (triggerExaSearch st reqs resp).calls = []) := by
  refine ⟨?_, ?_, ?_⟩
  · intro st reqs resp p hmem
    rw [triggerExaSearch_calls] at hmem
    split at hmem
    · simp at hmem
    · split at hmem
      · simp at hmem
      · simpa using hmem
  · intro st resp
    rw [triggerExaSearch_calls]
    decide
  · intro st reqs resp hq
    rw [triggerExaSearch_calls]
    split
    · rfl
    · simp [hq]

/-- Witness for C6: the concrete two-requirement list issues exactly the
joined prompt, and a whitespace-only requirement list issues nothing. -/
theorem c6_search_prompt_join_witness :
    (ApiCall.exaSearch "Italian, gluten-free" ∈
      (triggerExaSearch ⟨true, true, 1, [], none⟩
        [⟨"Italian", none, 0⟩, ⟨"gluten-free", none, 1⟩] (Except.ok [])).calls ∧
     "Italian, gluten-free" =
       String.intercalate ", "
         (([⟨"Italian", none, 0⟩, ⟨"gluten-free", none, 1⟩] : List RWS).map (·.requirement))) ∧
    (jsTrim (String.intercalate ", " (([⟨" ", none, 0⟩] : List RWS).map (·.requirement))) = "" ∧
     (triggerExaSearch ⟨true, true, 1, [], none⟩ [⟨" ", none, 0⟩] (Except.ok [])).calls = []) :=
  ⟨⟨by decide,
    c6_search_prompt_join.1 ⟨true, true, 1, [], none⟩
      [⟨"Italian", none, 0⟩, ⟨"gluten-free", none, 1⟩] (Except.ok [])
      "Italian, gluten-free" (by decide)⟩,
   ⟨by decide,
    c6_search_prompt_join.2.2 ⟨true, true, 1, [], none⟩ [⟨" ", none, 0⟩]
      (Except.ok []) (by decide)⟩⟩

theorem processWithGrok_error (st : LoopState) (now : Nat) (d e : String)
    (hd : jsTrim d ≠ "") :
    processWithGrok st now d (Except.error e) =
      ⟨[], { st with lastError := some e },
       [ApiCall.grokExtract d
         (if 0 < (st.requirements.map (·.requirement)).length
          then some (st.requirements.map (·.requirement)) else none)], [e]⟩ := by
  simp [processWithGrok, hd]

theorem cycleExtract_grok_error (st0 : LoopState) (now : Nat) (d e : String)
    (x : Except String (List RestaurantResult)) (hd : jsTrim d ≠ "") :
    (cycleExtract st0 now d (Except.error e) x).1.lastError = some e ∧
    e ∈ (cycleExtract st0 now d (Except.error e) x).2.errorCb := by
  simp [cycleExtract, processWithGrok_error st0 now d e hd]

/-- C9: a network error thrown by the extraction call is caught inside
`processWithGrok` (empty result, last error recorded, error callback
notified); a network error thrown by the search call is caught inside
`triggerExaSearch` likewise; through a whole cycle an extraction error is
recorded and reported; and whatever the two calls return, a cycle on an
active loop leaves the loop active and schedules the next cycle. -/
theorem c9_errors_do_not_stop_loop :
    (∀ (st : LoopState) (now : Nat) (d e : String), jsTrim d ≠ "" →
      (processWithGrok st now d (Except.error e)).newReqs = [] ∧
      (processWithGrok st now d (Except.error e)).st.lastError = some e ∧
      e ∈ (processWithGrok st now d (Except.error e)).errs) ∧
    (∀ (st : LoopState) (reqs : List RWS) (e : String),
      jsTrim (String.intercalate ", " (reqs.map (·.requirement))) ≠ "" →
      (triggerExaSearch st reqs (Except.error e)).st.lastError = some e ∧
      e ∈ (triggerExaSearch st reqs (Except.error e)).errs) ∧
    (∀ (st : LoopState) (now : Nat) (d e : String)
        (x : Except String (List RestaurantResult)),
      st.isLoopActiveRef = true → jsTrim d ≠ "" →
      (runCycle st now (some d) (Except.error e) x).1.lastError = some e ∧
      e ∈ (runCycle st now (some d) (Except.error e) x).2.errorCb) ∧
    (∀ (st : LoopState) (now : Nat) (delta : Option String)
        (g : Except String GrokResponse) (x : Except String (List RestaurantResult)),
      st.isLoopActiveRef = true →
      (runCycle st now delta g x).1.isLoopActiveRef = true ∧
      (runCycle st now delta g x).2.scheduledNext = true) := by
  refine ⟨?_, ?_, ?_, ?_⟩
  · intro st now d e hd
    rw [processWithGrok_error st now d e hd]
    simp
  · intro st reqs e hq
    cases reqs with
    | nil =>
        exact absurd
          (by decide :
            jsTrim (String.intercalate ", " (([] : List RWS).map (·.requirement))) = "") hq
    | cons a l =>
        simp only [triggerExaSearch]
        rw [if_neg (by simp), if_neg hq]
        simp
  · intro st now d e x hact hd
    rw [runCycle_active_delta st now d (Except.error e) x hact hd]
    have h := cycleExtract_grok_error
      { st with isProcessing := true, cycleCount := st.cycleCount + 1 } now d e x hd
    simpa using h
  · intro st now delta g x hact
    cases delta with
    | none =>
        rw [runCycle_none st now g x hact]
        exact ⟨hact, rfl⟩
    | some d =>
        by_cases hd : jsTrim d = ""
        · rw [runCycle_empty_delta st now d g x hact hd]
          exact ⟨hact, rfl⟩
        · rw [runCycle_active_delta st now d g x hact hd]
          have h : (cycleExtract
              { st with isProcessing := true, cycleCount := st.cycleCount + 1 }
              now d g x).1.isLoopActiveRef = true := by
            rw [cycleExtract_isLoopActive]
            exact hact
          constructor
          · simpa using h
          · simpa using h

/-- Witness for C9: a concrete active cycle whose extraction call throws is
recorded, reported, and still schedules the next cycle. -/
theorem c9_errors_do_not_stop_loop_witness :
    ((⟨true, false, 0, [], none⟩ : LoopState).isLoopActiveRef = true ∧
     jsTrim "hello there" ≠ "" ∧
     (runCycle ⟨true, false, 0, [], none⟩ 5 (some "hello there")
        (Except.error "network down") (Except.ok [])).1.lastError = some "network down" ∧
     "network down" ∈
       (runCycle ⟨true, false, 0, [], none⟩ 5 (some "hello there")
         (Except.error "network down") (Except.ok [])).2.errorCb) ∧
    ((runCycle ⟨true, false, 0, [], none⟩ 5 (some "hello there")
        (Except.error "network down") (Except.ok [])).1.isLoopActiveRef = true ∧
     (runCycle ⟨true, false, 0, [], none⟩ 5 (some "hello there")
        (Except.error "network down") (Except.ok [])).2.scheduledNext = true) :=
  ⟨⟨rfl, by decide,
    (c9_errors_do_not_stop_loop.2.2.1 ⟨true, false, 0, [], none⟩ 5 "hello there"
      "network down" (Except.ok []) rfl (by decide)).1,
    (c9_errors_do_not_stop_loop.2.2.1 ⟨true, false, 0, [], none⟩ 5 "hello there"
      "network down" (Except.ok []) rfl (by decide)).2⟩,
   c9_errors_do_not_stop_loop.2.2.2 ⟨true, false, 0, [], none⟩ 5 (some "hello there")
     (Except.error "network down") (Except.ok []) rfl⟩

/-! ### Cycle timing (the setTimeout chain of useVoiceLoop)

Timed embedding of the scheduling structure: `startLoop` installs
`setTimeout(.., initialDelayMs)`, so cycle 0 starts at `t0`; within
`runCycle` the extraction is awaited (cycle `n` takes `E n` time units), then
`triggerExaSearch` is invoked from the `setRequirements` updater WITHOUT
being awaited (its network call takes another `S n` units), and the trailing
`setTimeout(runCycle, cycleIntervalMs)` in the same code path schedules the
next cycle a fixed delay `d` after the extraction part completes. -/

/-- Start time of cycle `n` of the voice loop. -/
def cycleStart (t0 d : Nat) (E : Nat → Nat) : Nat → Nat
  | 0 => t0
  | n + 1 => cycleStart t0 d E n + E n + d

/-- Completion time of the awaited extraction part of cycle `n`. -/
def extractionEnd (t0 d : Nat) (E : Nat → Nat) (n : Nat) : Nat :=
  cycleStart t0 d E n + E n

/-- Completion time of the search triggered (fire-and-forget) at the end of
cycle `n`'s extraction. -/
def searchEnd (t0 d : Nat) (E S : Nat → Nat) (n : Nat) : Nat :=
  extractionEnd t0 d E n + S n

theorem cycleStart_mono (t0 d : Nat) (E : Nat → Nat) {m n : Nat} (h : m ≤ n) :
    cycleStart t0 d E m ≤ cycleStart t0 d E n := by
  induction n with
  | zero => simp [Nat.le_zero.mp h]
  | succ k ih =>
      rcases Nat.lt_or_ge m (k + 1) with hk | hk
      · have := ih (Nat.lt_succ_iff.mp hk)
        calc cycleStart t0 d E m ≤ cycleStart t0 d E k := this
          _ ≤ cycleStart t0 d E k + E k + d := by omega
          _ = cycleStart t0 d E (k + 1) := rfl
      · have : m = k + 1 := Nat.le_antisymm h hk
        simp [this]

/-- C2 counterexample: with the default 10-second cycle delay, a 1-second
extraction and a 20-second search, the search triggered in cycle 0 is still
in flight when cycle 1 starts, so the next cycle is NOT scheduled after the
triggered search completes. -/
theorem c2_counterexample :
    ¬ (∀ n, searchEnd 0 10000 (fun _ => 1000) (fun _ => 20000) n ≤
        cycleStart 0 10000 (fun _ => 1000) (n + 1)) := by
  intro h
  have h0 := h 0
  revert h0
  decide

/-- C2, amended: extraction calls of distinct cycles never overlap (cycle
`m`'s extraction has completed before any later cycle starts), and the next
cycle is scheduled exactly a fixed delay after the current cycle's extraction
completes — but the triggered search is not awaited, so a slow search may
still be in flight when the next cycle begins. -/
theorem c2_one_extraction_in_flight (t0 d : Nat) (E : Nat → Nat) (m n : Nat)
    (h : m < n) :
    cycleStart t0 d E (m + 1) = extractionEnd t0 d E m + d ∧
    extractionEnd t0 d E m ≤ cycleStart t0 d E n := by
  constructor
  · rfl
  · calc extractionEnd t0 d E m = cycleStart t0 d E m + E m := rfl
      _ ≤ cycleStart t0 d E m + E m + d := by omega
      _ = cycleStart t0 d E (m + 1) := rfl
      _ ≤ cycleStart t0 d E n := cycleStart_mono t0 d E h

/-- Witness for C2 (amended): concrete timing parameters for cycles 0 and 1. -/
theorem c2_one_extraction_in_flight_witness :
    0 < 1 ∧
    cycleStart 0 10000 (fun _ => 1000) 1 =
      extractionEnd 0 10000 (fun _ => 1000) 0 + 10000 ∧
    extractionEnd 0 10000 (fun _ => 1000) 0 ≤ cycleStart 0 10000 (fun _ => 1000) 1 :=
  ⟨by decide,
   (c2_one_extraction_in_flight 0 10000 (fun _ => 1000) 0 1 (by decide)).1,
   (c2_one_extraction_in_flight 0 10000 (fun _ => 1000) 0 1 (by decide)).2⟩

/-! ### Booking trigger (handleBooking of StreetView.tsx) -/

/-- Outcome kind of a finished booking attempt. -/
inductive BookStatusKind where
  | success
  | error
deriving DecidableEq, Repr

/-- Status banner state (`bookingStatus`). -/
structure BookingStatus where
  name : String
  status : BookStatusKind
  message : String
deriving DecidableEq, Repr

/-- Booking-related component state of StreetView.tsx. -/
structure BookingState where
  bookingInProgress : Option String
  bookingStatus : Option BookingStatus
deriving DecidableEq, Repr

/-- Request issued to the booking endpoint. -/
structure BookCall where
  restaurant_name : String
  phone_number : String
deriving DecidableEq, Repr

/-- Truthiness of the `bookingInProgress` marker (a `string | null` state):
the guard `if (bookingInProgress)` in StreetView.tsx is JavaScript
truthiness, which is false both for null and for the empty string. -/
def markerTruthy (o : Option String) : Bool :=
  match o with
  | none => false
  | some s => s ≠ ""

/-- Embedding of `handleBooking` of StreetView.tsx: a truthy
`bookingInProgress` makes the call a no-op; otherwise the in-progress marker
is set, `apiClient.bookRestaurant(restaurantName, phoneNumber || '')` is
awaited with its outcome given by the oracle `resp`, a success or error
status is stored, and the `finally` block clears the in-progress marker and
schedules the 5000 ms status auto-clear (the returned timer). -/
def handleBooking (st : BookingState) (restaurantName phoneNumber : String)
    (resp : Except String Unit) : BookingState × List BookCall × Option Nat :=
  if markerTruthy st.bookingInProgress then (st, [], none)
  else
    let call : BookCall :=
      ⟨restaurantName, if phoneNumber = "" then "" else phoneNumber⟩
    let status : BookingStatus :=
      match resp with
      | .ok _ => ⟨restaurantName, .success,
                  "Call initiated! James is booking your table..."⟩
      | .error e => ⟨restaurantName, .error, e⟩
    ({ bookingInProgress := none, bookingStatus := some status }, [call], some 5000)

/-- Embedding of the `setTimeout(() => setBookingStatus(null), 5000)` timer
callback: clears the status banner. -/
def bookingTimerFire (st : BookingState) : BookingState :=
  { st with bookingStatus := none }

/-- C8 counterexample: the in-flight guard is JavaScript truthiness on the
pending restaurant name, so with a booking for a restaurant named "" still
pending (the code set `bookingInProgress` to "", which is falsy), a repeat
invocation for that same restaurant is not ignored and issues a second
network call. -/
theorem c8_counterexample :
    markerTruthy (some "") = false ∧
    (handleBooking ⟨some "", none⟩ "" "+331234" (Except.ok ())).2.1 =
      [⟨"", "+331234"⟩] := by
  decide

/-- C8, amended: while a booking with a non-empty restaurant name is pending,
invoking the booking trigger again (in particular for the same restaurant)
performs no network call; when the marker is not truthy, a booking issues
exactly one network call, clears the in-progress marker on completion
whatever the outcome, and schedules the fixed 5-second status auto-clear,
whose firing clears the shown status; no retry is issued. -/
theorem c8_single_booking_in_flight :
    (∀ (st : BookingState) (pending n p : String) (r : Except String Unit),
      st.bookingInProgress = some pending → pending ≠ "" →
      handleBooking st n p r = (st, [], none)) ∧
    (∀ (st : BookingState) (n p : String) (r : Except String Unit),
      markerTruthy st.bookingInProgress = false →
      (handleBooking st n p r).2.1.length = 1 ∧
      (handleBooking st n p r).1.bookingInProgress = none ∧
      (handleBooking st n p r).2.2 = some 5000) ∧
    (∀ st : BookingState, (bookingTimerFire st).bookingStatus = none) := by
  refine ⟨?_, ?_, fun st => rfl⟩
  · intro st pending n p r hp hne
    have h : markerTruthy st.bookingInProgress = true := by
      simp [markerTruthy, hp, hne]
    simp [handleBooking, h]
  · intro st n p r h
    cases r <;> simp [handleBooking, h]

/-- Witness for C8 (amended): a second invocation for "Chez Luigi" while its
booking is pending issues no call, and a booking from idle issues exactly
one. -/
theorem c8_single_booking_in_flight_witness :
    ((⟨some "Chez Luigi", none⟩ : BookingState).bookingInProgress =
       some "Chez Luigi" ∧ "Chez Luigi" ≠ "" ∧
     handleBooking ⟨some "Chez Luigi", none⟩ "Chez Luigi" "+331234"
       (Except.ok ()) = (⟨some "Chez Luigi", none⟩, [], none)) ∧
    (markerTruthy (⟨none, none⟩ : BookingState).bookingInProgress = false ∧
     (handleBooking ⟨none, none⟩ "Chez Luigi" "+331234"
        (Except.ok ())).2.1.length = 1 ∧
     (handleBooking ⟨none, none⟩ "Chez Luigi" "+331234"
        (Except.ok ())).1.bookingInProgress = none ∧
     (handleBooking ⟨none, none⟩ "Chez Luigi" "+331234"
        (Except.ok ())).2.2 = some 5000) :=
  ⟨⟨rfl, by decide,
    c8_single_booking_in_flight.1 ⟨some "Chez Luigi", none⟩ "Chez Luigi"
      "Chez Luigi" "+331234" (Except.ok ()) rfl (by decide)⟩,
   ⟨rfl,
    c8_single_booking_in_flight.2.1 ⟨none, none⟩ "Chez Luigi" "+331234"
      (Except.ok ()) rfl⟩⟩

/-! ### PCM conversion (useLiveScribe.ts floatTo16BitPCM and the inline loop
of useVoiceRecorder.ts)

Floating-point samples are modelled as rationals: clamping with min / max and
the two scalings are exact in this range (scaling by 0x8000 is exact in
binary floating point, and scaling by 0x7fff is bounded by its real value at
the representable endpoints), and the int16 store truncates toward zero. -/

/-- Embedding of `Math.max(-1, Math.min(1, sample))`. -/
def jsClampSample (x : ℚ) : ℚ := max (-1) (min 1 x)

/-- Embedding of `s < 0 ? s * 0x8000 : s * 0x7fff` after clamping. -/
def floatTo16BitPCMSample (x : ℚ) : ℚ :=
  let s := jsClampSample x
  if s < 0 then s * 32768 else s * 32767

/-- Truncation toward zero applied when the scaled sample is stored into an
`Int16Array` slot or through `DataView.setInt16`. -/
def jsTrunc (q : ℚ) : ℤ := if q < 0 then ⌈q⌉ else ⌊q⌋

/-- The int16 value actually written for one audio sample. -/
def pcm16 (x : ℚ) : ℤ := jsTrunc (floatTo16BitPCMSample x)

/-- C10: the conversion clamps to [-1, 1], scales negatives by 32768 and
non-negatives by 32767, and therefore every produced PCM sample lies in the
signed 16-bit range [-32768, 32767], whatever the input sample. -/
theorem c10_pcm_range (x : ℚ) :
    -1 ≤ jsClampSample x ∧ jsClampSample x ≤ 1 ∧
    -32768 ≤ floatTo16BitPCMSample x ∧ floatTo16BitPCMSample x ≤ 32767 ∧
    -32768 ≤ pcm16 x ∧ pcm16 x ≤ 32767 := by
  have h1 : -1 ≤ jsClampSample x := le_max_left _ _
  have h2 : jsClampSample x ≤ 1 :=
    max_le (by norm_num) (min_le_left _ _)
  refine ⟨h1, h2, ?_⟩
  unfold pcm16 jsTrunc floatTo16BitPCMSample
  by_cases hs : jsClampSample x < 0
  · simp only [hs, if_true]
    have hlo : (-32768 : ℚ) ≤ jsClampSample x * 32768 := by nlinarith
    have hhi : jsClampSample x * 32768 ≤ 32767 := by nlinarith
    have hneg : jsClampSample x * 32768 < 0 := by nlinarith
    refine ⟨hlo, hhi, ?_, ?_⟩
    · rw [if_pos hneg]
      have := Int.ceil_le_ceil hlo
      simpa using this
    · rw [if_pos hneg]
      have h0 : ⌈jsClampSample x * 32768⌉ ≤ 0 :=
        Int.ceil_le.mpr (by exact_mod_cast le_of_lt hneg)
      omega
  · push_neg at hs
    simp only [not_lt.mpr hs, if_false]
    have hlo : (0 : ℚ) ≤ jsClampSample x * 32767 := by nlinarith
    have hhi : jsClampSample x * 32767 ≤ 32767 := by nlinarith
    refine ⟨by linarith, hhi, ?_, ?_⟩
    · rw [if_neg (not_lt.mpr hlo)]
      have h0 : (0 : ℤ) ≤ ⌊jsClampSample x * 32767⌋ := Int.floor_nonneg.mpr hlo
      omega
    · rw [if_neg (not_lt.mpr hlo)]
      have := Int.floor_le_floor hhi
      simpa using this

end VoiceDine
